import Mathlib

/-!
Verification development for the gfw_pixetl raster tiling engine.

Shallow embedding of the window-planning, masked-array, calc, pipeline,
version-validation, retry and destination-existence logic of the source
tree, together with theorems settling the specification claims.
Machine integers are modelled as Nat/Int, floating point arithmetic as
exact rationals, and fallible code as Except values.
-/

/- ------------------------------------------------------------------ -/
/- C1: window planning, RasterSrcTile._max_blocks                      -/
/- ------------------------------------------------------------------ -/

/-- Embeds RasterSrcTile._block_byte_size: block pixel count times the
numpy item size of the destination dtype. -/
def block_byte_size (blockxsize blockysize itemsize : ℕ) : ℕ :=
  blockxsize * blockysize * itemsize

/-- Embeds the divisor computation inside RasterSrcTile._max_blocks:
start from GLOBALS.divisor, multiply by co_workers = floor(cores/workers)
when co_workers is at least 2, and square the whole accumulated divisor
when the layer has a calc expression. -/
def max_blocks_divisor (baseDivisor cores workers : ℕ) (hasCalc : Bool) : ℕ :=
  let coWorkers := cores / workers
  let d := if 2 ≤ coWorkers then baseDivisor * coWorkers else baseDivisor
  if hasCalc then d ^ 2 else d

/-- Divisor as the specification text words it: base_divisor times
co_workers (when co_workers is at least 2, else times 1), and times
base_divisor exactly once more when a calc expression is present.
Written from the spec sentence for comparison with the source. -/
def max_blocks_divisor_spec (baseDivisor cores workers : ℕ) (hasCalc : Bool) : ℕ :=
  let coWorkers := cores / workers
  baseDivisor * (if 2 ≤ coWorkers then coWorkers else 1) *
    (if hasCalc then baseDivisor else 1)

/-- Embeds RasterSrcTile._max_blocks: divide the per-process memory by the
divisor, divide by the bytes per block, and take the square of the floor of
the square root, so that the result is a perfect square.  The Python
floor(sqrt(x)) on a nonnegative float is modelled as Nat.sqrt of the
rational floor, which agrees with the real-number value. -/
def max_blocks (baseDivisor cores workers : ℕ) (hasCalc : Bool)
    (memBytes : ℚ) (bytesPerBlock : ℕ) : ℕ :=
  let divisor := max_blocks_divisor baseDivisor cores workers hasCalc
  let memoryPerProcess : ℚ := memBytes / divisor
  (Nat.sqrt ⌊memoryPerProcess / bytesPerBlock⌋₊) ^ 2

/-- Variant of max_blocks that uses the divisor as the spec words it. -/
def max_blocks_spec (baseDivisor cores workers : ℕ) (hasCalc : Bool)
    (memBytes : ℚ) (bytesPerBlock : ℕ) : ℕ :=
  let divisor := max_blocks_divisor_spec baseDivisor cores workers hasCalc
  let memoryPerProcess : ℚ := memBytes / divisor
  (Nat.sqrt ⌊memoryPerProcess / bytesPerBlock⌋₊) ^ 2

example : max_blocks_divisor 8 8 2 true = 1024 := by decide
example : max_blocks_divisor_spec 8 8 2 true = 256 := by decide

/-- C1, counterexample: with base divisor 8, 8 cores, 2 workers and a calc
expression present, the source divisor is (8 * 4) ^ 2 = 1024 while the
claimed formula gives 8 * 4 * 8 = 256, and the resulting block budgets
differ (1 block versus 4 blocks for a 1024-byte memory budget and
1-byte blocks). -/
theorem max_blocks_divisor_counterexample :
    max_blocks_divisor 8 8 2 true = 1024 ∧
    max_blocks_divisor_spec 8 8 2 true = 256 ∧
    max_blocks_divisor 8 8 2 true ≠ max_blocks_divisor_spec 8 8 2 true ∧
    max_blocks 8 8 2 true 1024 1 = 1 ∧
    max_blocks_spec 8 8 2 true 1024 1 = 4 := by
  refine ⟨by decide, by decide, by decide, ?_, ?_⟩
  · show (Nat.sqrt ⌊(1024 : ℚ) / (1024 : ℕ) / (1 : ℕ)⌋₊) ^ 2 = 1
    norm_num
  · show (Nat.sqrt ⌊(1024 : ℚ) / (256 : ℕ) / (1 : ℕ)⌋₊) ^ 2 = 4
    norm_num

/-- C1, amended: the divisor equals base_divisor times co_workers when
co_workers is at least 2, and is then squared (not multiplied by
base_divisor once) when a calc expression is present; equivalently it is
the spec formula times an extra co_workers factor exactly when both a calc
is present and co_workers is at least 2.  max_blocks is the squared floor
of the square root of the per-super-window memory divided by the block
byte size, hence always a perfect square. -/
theorem max_blocks_divisor_spec_relation
    (baseDivisor cores workers : ℕ) (hasCalc : Bool)
    (memBytes : ℚ) (bytesPerBlock : ℕ) :
    max_blocks_divisor baseDivisor cores workers hasCalc =
      max_blocks_divisor_spec baseDivisor cores workers hasCalc *
        (if hasCalc = true ∧ 2 ≤ cores / workers then cores / workers else 1) ∧
    max_blocks baseDivisor cores workers hasCalc memBytes bytesPerBlock =
      (Nat.sqrt ⌊memBytes / (max_blocks_divisor baseDivisor cores workers hasCalc : ℚ)
          / (bytesPerBlock : ℚ)⌋₊) ^ 2 ∧
    IsSquare (max_blocks baseDivisor cores workers hasCalc memBytes bytesPerBlock) := by
  refine ⟨?_, rfl, ?_⟩
  · unfold max_blocks_divisor max_blocks_divisor_spec
    rcases hasCalc with _ | _ <;> by_cases h : 2 ≤ cores / workers <;>
      simp [h] <;> ring
  · unfold max_blocks
    exact ⟨_, pow_two _⟩

/- ------------------------------------------------------------------ -/
/- Masked arrays (C5, C7)                                              -/
/- ------------------------------------------------------------------ -/

/-- A 2-D numpy MaskedArray: per-cell integer data plus a parallel boolean
mask, true meaning invalid/nodata. -/
structure MaskedArr (rows cols : ℕ) where
  data : Fin rows → Fin cols → ℤ
  mask : Fin rows → Fin cols → Bool

/-- Embeds RasterSrcTile._set_dtype: when the destination profile has a
nodata value (Raster.has_no_data), fill the masked cells with that nodata
value and cast the whole array to the destination dtype; otherwise cast
the underlying data view, leaving masked cells untouched.  The dtype cast
is the function castTo. -/
def set_dtype (castTo : ℤ → ℤ) (nodata : Option ℤ) {r c : ℕ}
    (a : MaskedArr r c) : Fin r → Fin c → ℤ :=
  match nodata with
  | some nd => fun i j => castTo (if a.mask i j then nd else a.data i j)
  | none => fun i j => castTo (a.data i j)

/-- Embeds Raster.has_no_data: the profile nodata entry is not None. -/
def has_no_data (nodata : Option ℤ) : Bool :=
  nodata.isSome

/-- C5: when the destination has a nodata value, every masked cell is
replaced by that nodata value and then cast (so it equals the cast of the
nodata value, and equals nodata itself whenever nodata is representable in
the destination dtype), unmasked cells are the cast of their data, and
when the destination has no nodata the result is the cast of the
underlying data with the mask ignored. -/
theorem set_dtype_nodata_faithful {r c : ℕ} (a : MaskedArr r c)
    (castTo : ℤ → ℤ) (nd : ℤ) :
    (∀ i j, a.mask i j = true → set_dtype castTo (some nd) a i j = castTo nd) ∧
    (∀ i j, a.mask i j = false → set_dtype castTo (some nd) a i j = castTo (a.data i j)) ∧
    (∀ i j, set_dtype castTo none a i j = castTo (a.data i j)) ∧
    (castTo nd = nd → ∀ i j, a.mask i j = true → set_dtype castTo (some nd) a i j = nd) := by
  refine ⟨fun i j h => by simp [set_dtype, h], fun i j h => by simp [set_dtype, h],
    fun i j => rfl, fun hrep i j h => by simp [set_dtype, h, hrep]⟩

/-- Concrete 1 by 1 masked array whose single cell is masked. -/
def maskedCell : MaskedArr 1 1 :=
  { data := fun _ _ => 7, mask := fun _ _ => true }

/-- C5, witness: on a concrete fully masked cell with destination nodata 5
and identity cast, the cast output is 5. -/
theorem set_dtype_nodata_faithful_witness :
    set_dtype (fun z => z) (some 5) maskedCell 0 0 = 5 :=
  (set_dtype_nodata_faithful maskedCell (fun z => z) 5).2.2.2 rfl 0 0 rfl

/-- Embeds RasterSrcTile._block_has_data: invert the mask, count the cells
left, and report data present iff both dimensions are nonzero and the
count of unmasked cells is nonzero. -/
def block_has_data {r c : ℕ} (a : MaskedArr r c) : Bool :=
  let size := ((Finset.univ : Finset (Fin r × Fin c)).filter
    (fun p => a.mask p.1 p.2 = false)).card
  decide (0 < r) && decide (0 < c) && decide (size ≠ 0)

/-- Embeds RasterSrcTile._transform for one window: read the window (the
argument array), and when the block has data apply the calc step, the
dtype cast and write the resulting array, returning the written file;
otherwise skip the window, write nothing, and return none. -/
def transform_window {r c : ℕ} (calcF : MaskedArr r c → MaskedArr r c)
    (castTo : ℤ → ℤ) (nodata : Option ℤ)
    (write : (Fin r → Fin c → ℤ) → String) (a : MaskedArr r c) : Option String :=
  if block_has_data a then
    some (write (set_dtype castTo nodata (calcF a)))
  else none

/-- C7: block_has_data holds iff both dimensions are nonzero and at least
one cell is unmasked; and a window whose array has no data is skipped by
the transform, with nothing written for it. -/
theorem block_has_data_characterization {r c : ℕ} (a : MaskedArr r c)
    (calcF : MaskedArr r c → MaskedArr r c) (castTo : ℤ → ℤ)
    (nodata : Option ℤ) (write : (Fin r → Fin c → ℤ) → String) :
    (block_has_data a = true ↔
      0 < r ∧ 0 < c ∧ ∃ i j, a.mask i j = false) ∧
    (block_has_data a = false →
      transform_window calcF castTo nodata write a = none) := by
  constructor
  · simp only [block_has_data, Bool.and_eq_true, decide_eq_true_eq, Ne,
      Finset.card_eq_zero, and_assoc]
    refine and_congr_right fun _ => and_congr_right fun _ => ?_
    constructor
    · intro hne
      obtain ⟨⟨i, j⟩, hmem⟩ := Finset.nonempty_of_ne_empty hne
      exact ⟨i, j, (Finset.mem_filter.mp hmem).2⟩
    · rintro ⟨i, j, h⟩ he
      have hmem : (⟨i, j⟩ : Fin r × Fin c) ∈
          (Finset.univ.filter fun p => a.mask p.1 p.2 = false) :=
        Finset.mem_filter.mpr ⟨Finset.mem_univ _, h⟩
      rw [he] at hmem
      exact Finset.not_mem_empty _ hmem
  · intro h
    simp [transform_window, h]

/-- Concrete 1 by 1 masked array with every cell masked out. -/
def emptyCell : MaskedArr 1 1 :=
  { data := fun _ _ => 3, mask := fun _ _ => true }

/-- C7, witness: the fully masked concrete block reports no data, and the
transform writes nothing for it. -/
theorem block_has_data_characterization_witness :
    transform_window (fun x => x) (fun z => z) none (fun _ => "out.tif") emptyCell
      = none :=
  (block_has_data_characterization emptyCell (fun x => x) (fun z => z) none
      (fun _ => "out.tif")).2 (by decide)

/- ------------------------------------------------------------------ -/
/- C9: RasterSrcTile.transform error handling                          -/
/- ------------------------------------------------------------------ -/

/-- Lifecycle status of a tile. -/
inductive TileStatus where
  | pending
  | skipped
  | failed
  | succeeded
deriving DecidableEq, Repr

/-- Result of RasterSrcTile.transform: the returned has_data flag, the
tile status afterwards, and whether the postprocessing hook ran. -/
structure TransformOutcome where
  has_data : Bool
  status : TileStatus
  postprocessed : Bool
deriving DecidableEq, Repr

/-- Embeds RasterSrcTile.transform: call _process_windows; when it raises,
set the tile status to failed, skip postprocessing and report has_data as
True; otherwise keep the status, run the postprocessing hook and return
the has_data flag computed from the windows. -/
def tile_transform (status0 : TileStatus) (processWindows : Except String Bool) :
    TransformOutcome :=
  match processWindows with
  | Except.error _ =>
      { has_data := true, status := TileStatus.failed, postprocessed := false }
  | Except.ok hd =>
      { has_data := hd, status := status0, postprocessed := true }

/-- C9: when processing the windows of a tile raises any exception, the
transform reports the tile as failed, does not run the postprocessing
hook, and still returns True for has_data; when no exception occurs the
status is untouched, the hook runs and the computed flag is returned.
The hook runs exactly when no exception occurred. -/
theorem tile_transform_failure_semantics (status0 : TileStatus)
    (processWindows : Except String Bool) :
    (∀ e, processWindows = Except.error e →
      tile_transform status0 processWindows =
        { has_data := true, status := TileStatus.failed, postprocessed := false }) ∧
    (∀ hd, processWindows = Except.ok hd →
      tile_transform status0 processWindows =
        { has_data := hd, status := status0, postprocessed := true }) ∧
    ((tile_transform status0 processWindows).postprocessed = true ↔
      ∃ hd, processWindows = Except.ok hd) := by
  refine ⟨fun e he => by rw [he]; rfl, fun hd hh => by rw [hh]; rfl, ?_⟩
  cases processWindows with
  | error e => simp [tile_transform]
  | ok hd => simp [tile_transform]

/-- C9, witness: a concrete raising window run marks the tile failed,
skips the hook and returns True. -/
theorem tile_transform_failure_semantics_witness :
    tile_transform TileStatus.pending (Except.error "read failed") =
      { has_data := true, status := TileStatus.failed, postprocessed := false } :=
  (tile_transform_failure_semantics TileStatus.pending
    (Except.error "read failed")).1 "read failed" rfl

/- ------------------------------------------------------------------ -/
/- C8: RasterSrcTile._vrt_transform                                    -/
/- ------------------------------------------------------------------ -/

/-- Python round on an exact rational: round half to even. -/
def pyRound (q : ℚ) : ℤ :=
  let f := ⌊q⌋
  let frac := q - f
  if frac < 1 / 2 then f
  else if 1 / 2 < frac then f + 1
  else if Even f then f else f + 1

/-- Modelled from the spec: LatLngGrid.snap_coordinates, whose source file
gfw_pixetl/grids/lat_lng_grid.py is absent from the tree, snaps a
coordinate pair to the pixel grid; scenario S3 and tests/test_raster_src_tile
pin the behavior, latitude is rounded up and longitude rounded down to the
next multiple of the pixel size: snap(9.7777, 10.1117) with pixel size
0.00025 yields (9.77775, 10.1115). -/
def snap_coordinates (yres xres lat lng : ℚ) : ℚ × ℚ :=
  (⌈lat / yres⌉ * yres, ⌊lng / xres⌋ * xres)

/-- A 6-parameter affine transform, in rasterio order (a, b, c, d, e, f). -/
structure AffineT where
  a : ℚ
  b : ℚ
  c : ℚ
  d : ℚ
  e : ℚ
  f : ℚ
deriving DecidableEq, Repr

/-- rasterio.transform.from_origin: upper-left corner plus pixel sizes. -/
def from_origin (west north xsize ysize : ℚ) : AffineT :=
  { a := xsize, b := 0, c := west, d := 0, e := -ysize, f := north }

/-- Embeds RasterSrcTile._vrt_transform: snap the NW corner (north, west)
and the SE corner (south, east) to the grid, build the affine from the
snapped origin and the grid pixel sizes, and derive width and height by
rounding the snapped extents divided by the resolutions. -/
def vrt_transform (yres xres west south east north : ℚ) :
    AffineT × ℤ × ℤ :=
  let nw := snap_coordinates yres xres north west
  let se := snap_coordinates yres xres south east
  (from_origin nw.2 nw.1 xres yres,
   pyRound ((se.2 - nw.2) / xres),
   pyRound ((nw.1 - se.1) / yres))

/-- Python round of an exact integer is that integer. -/
theorem pyRound_intCast (n : ℤ) : pyRound (n : ℚ) = n := by
  simp [pyRound]

example : snap_coordinates (1/4000) (1/4000) (97777/10000) (101117/10000) =
    (977775/100000, 101115/10000) := by
  simp only [snap_coordinates, Prod.mk.injEq]
  constructor
  · rw [show (⌈((97777:ℚ)/10000) / (1/4000)⌉ : ℤ) = 39111 from by
      rw [Int.ceil_eq_iff]
      norm_num]
    norm_num
  · rw [show (⌊((101117:ℚ)/10000) / (1/4000)⌋ : ℤ) = 40446 from by norm_num]
    norm_num

/-- C8: the warped-view transform snaps the NW and SE corners to the grid,
returns the affine from the snapped origin, and width and height as the
rounded snapped extents over the resolutions; at xres = yres = 0.00025 the
bounds (9.1, 9.1, 9.2, 9.2) give the affine
(0.00025, 0, 9.1, 0, -0.00025, 9.2) and width = height = 400. -/
theorem vrt_transform_derivation :
    (∀ yres xres west south east north : ℚ,
      vrt_transform yres xres west south east north =
        (from_origin (snap_coordinates yres xres north west).2
            (snap_coordinates yres xres north west).1 xres yres,
         pyRound (((snap_coordinates yres xres south east).2 -
            (snap_coordinates yres xres north west).2) / xres),
         pyRound (((snap_coordinates yres xres north west).1 -
            (snap_coordinates yres xres south east).1) / yres))) ∧
    vrt_transform (1/4000) (1/4000) (91/10) (91/10) (92/10) (92/10) =
      ({ a := 1/4000, b := 0, c := 91/10, d := 0, e := -(1/4000), f := 92/10 },
       400, 400) := by
  refine ⟨fun _ _ _ _ _ _ => rfl, ?_⟩
  have hceil1 : (⌈((92:ℚ)/10) / (1/4000)⌉ : ℤ) = 36800 := by
    rw [Int.ceil_eq_iff]
    norm_num
  have hceil2 : (⌈((91:ℚ)/10) / (1/4000)⌉ : ℤ) = 36400 := by
    rw [Int.ceil_eq_iff]
    norm_num
  have hfloor1 : (⌊((91:ℚ)/10) / (1/4000)⌋ : ℤ) = 36400 := by norm_num
  have hfloor2 : (⌊((92:ℚ)/10) / (1/4000)⌋ : ℤ) = 36800 := by norm_num
  have harg : (((36800:ℤ):ℚ) * (1/4000) - ((36400:ℤ):ℚ) * (1/4000)) / (1/4000)
      = ((400:ℤ):ℚ) := by
    push_cast
    norm_num
  simp only [vrt_transform, snap_coordinates, from_origin, Prod.mk.injEq,
    AffineT.mk.injEq, hceil1, hceil2, hfloor1, hfloor2, harg, pyRound_intCast]
  norm_num

/- ------------------------------------------------------------------ -/
/- C6: read retry policy                                               -/
/- ------------------------------------------------------------------ -/

/-- Wait in milliseconds before the retry following attempt k, per the
retrying configuration on RasterSrcTile._read_window:
wait_exponential_multiplier = 1000, wait_exponential_max = 300000. -/
def retry_wait (k : ℕ) : ℕ :=
  min (1000 * 2 ^ k) 300000

/-- Generic retry loop of the retrying decorator: run the action; on
success return immediately; on an error accepted by the retryable
predicate, wait and try again while attempts remain; on a non-retryable
error propagate immediately.  The fuel argument counts the retries still
allowed, so fuel n means n + 1 attempts in total.  Returns the final
result, the number of attempts made, and the list of waits performed. -/
def retry_run {ε : Type} {α : Type} (retryable : ε → Bool)
    (action : ℕ → Except ε α) : ℕ → ℕ → Except ε α × ℕ × List ℕ
  | 0, k => (action k, 1, [])
  | fuel + 1, k =>
    match action k with
    | Except.ok a => (Except.ok a, 1, [])
    | Except.error e =>
      if retryable e then
        let rest := retry_run retryable action fuel (k + 1)
        (rest.1, rest.2.1 + 1, retry_wait k :: rest.2.2)
      else (Except.error e, 1, [])

/-- Error classes a window read can raise. -/
inductive ReadError where
  | ioTransient (msg : String)
  | notFound (msg : String)
  | unknownFormat (msg : String)
deriving DecidableEq, Repr

/-- Modelled from the spec: the predicate retry_if_rasterio_io_error
(gfw_pixetl/errors.py is absent from the tree) accepts transient rasterio
I/O errors for retry, while the not-found and unknown-format classes are
non-retryable and fail immediately. -/
def retry_if_rasterio_io_error (e : ReadError) : Bool :=
  match e with
  | ReadError.ioTransient _ => true
  | ReadError.notFound _ => false
  | ReadError.unknownFormat _ => false

/-- Embeds the retry decoration of RasterSrcTile._read_window:
stop_max_attempt_number = 7, so 6 retries after the first attempt. -/
def read_window_run {α : Type} (action : ℕ → Except ReadError α) :
    Except ReadError α × ℕ × List ℕ :=
  retry_run retry_if_rasterio_io_error action 6 0

/-- The retry loop with fuel n makes at most n + 1 attempts. -/
theorem retry_run_attempts_le {ε α : Type} (retryable : ε → Bool)
    (action : ℕ → Except ε α) :
    ∀ fuel k, (retry_run retryable action fuel k).2.1 ≤ fuel + 1 := by
  intro fuel
  induction fuel with
  | zero => intro k; simp [retry_run]
  | succ n ih =>
    intro k
    simp only [retry_run]
    cases action k with
    | ok a => simp
    | error e =>
      by_cases h : retryable e = true
      · simpa [h] using Nat.succ_le_succ (ih (k + 1))
      · simp [h]

/-- C6: a read failing with a transient rasterio I/O error is attempted
exactly 7 times with waits of 1000 * 2 ^ k milliseconds capped at 300000
before the error is propagated; not-found and unknown-format errors are
propagated immediately after a single attempt with no waits; a successful
read returns at once; and no action is ever attempted more than 7 times. -/
theorem read_window_retry_policy {α : Type} :
    (∀ (m : String),
      read_window_run (α := α) (fun _ => Except.error (ReadError.ioTransient m)) =
        (Except.error (ReadError.ioTransient m), 7, (List.range 6).map retry_wait)) ∧
    (∀ (m : String),
      read_window_run (α := α) (fun _ => Except.error (ReadError.notFound m)) =
        (Except.error (ReadError.notFound m), 1, [])) ∧
    (∀ (m : String),
      read_window_run (α := α) (fun _ => Except.error (ReadError.unknownFormat m)) =
        (Except.error (ReadError.unknownFormat m), 1, [])) ∧
    (∀ (v : α), read_window_run (fun _ => Except.ok v) = (Except.ok v, 1, [])) ∧
    (∀ action : ℕ → Except ReadError α, (read_window_run action).2.1 ≤ 7) ∧
    (∀ k, retry_wait k = min (1000 * 2 ^ k) 300000 ∧ retry_wait k ≤ 300000) := by
  refine ⟨fun m => rfl, fun m => rfl, fun m => rfl, fun v => rfl,
    fun action => retry_run_attempts_le _ _ 6 0, fun k => ⟨rfl, min_le_right _ _⟩⟩

/- ------------------------------------------------------------------ -/
/- C10: Destination.exists and _file_does_not_exist                    -/
/- ------------------------------------------------------------------ -/

/-- Exceptions seen around Raster.fetch_meta. -/
inductive PyExc where
  | rasterioIOError (msg : String)
  | fileNotFound (msg : String)
  | otherExc (msg : String)
deriving DecidableEq, Repr

/-- Substring test on character lists, modelling the Python operator
testing containment of one string in another. -/
def str_contains (s sub : List Char) : Bool :=
  (List.range (s.length + 1)).any fun i => sub.isPrefixOf (s.drop i)

/-- The hard-coded message fragments of _file_does_not_exist. -/
def not_exist_errors : List String :=
  ["does not exist in the file system, and is not recognized as a supported dataset name",
   "The specified key does not exist",
   "No such file or directory",
   "not recognized as a supported file format",
   "Access Denied"]

/-- Embeds _file_does_not_exist: the exception is a RasterioIOError and
its message contains one of the hard-coded fragments. -/
def file_does_not_exist (e : PyExc) : Bool :=
  match e with
  | PyExc.rasterioIOError msg =>
      not_exist_errors.any fun err => str_contains msg.data err.data
  | _ => false

/-- Embeds one attempt of Raster.fetch_meta: open the url; on an
exception matching _file_does_not_exist raise FileNotFoundError, on any
other rasterio error re-raise (the retry decorator may retry it), and
re-raise anything else. -/
def fetch_meta_attempt {α : Type} (url : String) (openResult : Except PyExc α) :
    Except PyExc α :=
  match openResult with
  | Except.ok m => Except.ok m
  | Except.error e =>
    if file_does_not_exist e then
      Except.error (PyExc.fileNotFound ("File does not exist: " ++ url))
    else Except.error e

/-- Modelled from the spec: retry_if_rasterio_error (gfw_pixetl/errors.py
is absent from the tree) retries rasterio I/O errors only, so the
converted FileNotFoundError is never retried. -/
def retry_if_rasterio_error (e : PyExc) : Bool :=
  match e with
  | PyExc.rasterioIOError _ => true
  | _ => false

/-- Embeds the retry-decorated Raster.fetch_meta (7 attempts). -/
def fetch_meta_run {α : Type} (url : String) (openResult : ℕ → Except PyExc α) :
    Except PyExc α × ℕ × List ℕ :=
  retry_run retry_if_rasterio_error (fun k => fetch_meta_attempt url (openResult k)) 6 0

/-- Embeds Destination.exists: fetch the metadata; True on success, False
when fetch_meta raised FileNotFoundError, and any other exception
propagates. -/
def dst_exists {α : Type} (url : String) (openResult : ℕ → Except PyExc α) :
    Except PyExc Bool :=
  match (fetch_meta_run url openResult).1 with
  | Except.ok _ => Except.ok true
  | Except.error (PyExc.fileNotFound _) => Except.ok false
  | Except.error e => Except.error e

/-- Embeds Pipe.filter_target_tiles (gfw_pixetl/pipes/pipe.py): forward a
tile iff overwrite is set or its destination does not exist. -/
def filter_target_tiles {τ : Type} (overwrite : Bool) (dstExistsB : τ → Bool)
    (tiles : List τ) : List τ :=
  tiles.filter fun t => overwrite || !dstExistsB t

/-- C10: whenever opening the destination keeps raising a RasterioIOError
whose message contains one of the hard-coded fragments (such as Access
Denied or a not-recognized format), fetch_meta converts it to
FileNotFoundError on the first attempt without retrying, Destination.exists
reports False, and with overwrite set to false such tiles pass the
destination filter and are reprocessed rather than skipped. -/
theorem destination_exists_error_classification {α : Type}
    (url msg : String)
    (h : file_does_not_exist (PyExc.rasterioIOError msg) = true) :
    fetch_meta_attempt (α := α) url (Except.error (PyExc.rasterioIOError msg)) =
      Except.error (PyExc.fileNotFound ("File does not exist: " ++ url)) ∧
    (fetch_meta_run (α := α) url
      (fun _ => Except.error (PyExc.rasterioIOError msg))) =
      (Except.error (PyExc.fileNotFound ("File does not exist: " ++ url)), 1, []) ∧
    dst_exists (α := α) url (fun _ => Except.error (PyExc.rasterioIOError msg)) =
      Except.ok false ∧
    (∀ tiles : List String, filter_target_tiles false (fun _ => false) tiles = tiles) := by
  have h1 : fetch_meta_attempt (α := α) url
      (Except.error (PyExc.rasterioIOError msg)) =
      Except.error (PyExc.fileNotFound ("File does not exist: " ++ url)) := by
    simp [fetch_meta_attempt, h]
  refine ⟨h1, ?_, ?_, ?_⟩
  · simp [fetch_meta_run, retry_run, h1, retry_if_rasterio_error]
  · simp [dst_exists, fetch_meta_run, retry_run, h1, retry_if_rasterio_error]
  · intro tiles
    simp [filter_target_tiles]

/-- C10, witness: a concrete Access Denied rasterio error makes the
destination count as absent and the tile is reprocessed with
overwrite = false. -/
theorem destination_exists_error_classification_witness :
    dst_exists (α := Unit) "s3://bucket/tile.tif"
      (fun _ => Except.error (PyExc.rasterioIOError "Access Denied")) =
      Except.ok false ∧
    filter_target_tiles false (fun _ => false) ["10N_010E"] = ["10N_010E"] :=
  ⟨(destination_exists_error_classification "s3://bucket/tile.tif" "Access Denied"
      (by decide)).2.2.1,
   (destination_exists_error_classification (α := Unit) "s3://bucket/tile.tif"
      "Access Denied" (by decide)).2.2.2 ["10N_010E"]⟩

/- ------------------------------------------------------------------ -/
/- C2: RasterSrcTile._calc and the calc sub-language                   -/
/- ------------------------------------------------------------------ -/

/-- Abstract syntax of Python expressions a calc string can contain,
including constructs outside the calc allowlist (attribute access,
indexing, arbitrary function calls). -/
inductive CalcExpr where
  | varA
  | num (n : ℤ)
  | add (x y : CalcExpr)
  | sub (x y : CalcExpr)
  | mul (x y : CalcExpr)
  | neg (x : CalcExpr)
  | attr (x : CalcExpr) (field : String)
  | index (x : CalcExpr) (i : ℕ)
  | call1 (fname : String) (arg : CalcExpr)
deriving DecidableEq, Repr

/-- A 1-D masked numeric array, the value bound to A by the generated
function body. -/
structure MaskedVec where
  data : List ℤ
  mask : List Bool
deriving DecidableEq, Repr

/-- Runtime value of a Python expression over masked arrays. -/
inductive PyVal where
  | arr (v : MaskedVec)
  | intv (n : ℤ)
deriving DecidableEq, Repr

/-- Numpy-style elementwise binary operator with broadcast of scalars and
union of masks. -/
def liftBin (op : ℤ → ℤ → ℤ) : PyVal → PyVal → Except String PyVal
  | PyVal.arr u, PyVal.arr v =>
    if u.data.length = v.data.length then
      Except.ok (PyVal.arr
        { data := List.zipWith op u.data v.data,
          mask := List.zipWith (fun x y => x || y) u.mask v.mask })
    else Except.error "ValueError: operands could not be broadcast"
  | PyVal.arr u, PyVal.intv n =>
    Except.ok (PyVal.arr { data := u.data.map (fun x => op x n), mask := u.mask })
  | PyVal.intv n, PyVal.arr v =>
    Except.ok (PyVal.arr { data := v.data.map (fun x => op n x), mask := v.mask })
  | PyVal.intv m, PyVal.intv n => Except.ok (PyVal.intv (op m n))

/-- Evaluator for the exec of the generated function body: every
construct, allowlisted or not, is executed; failures are ordinary Python
runtime exceptions (NameError, AttributeError, IndexError), never a
static-validation error.  Attribute access data on a masked array yields
the underlying ndarray, dropping the mask. -/
def evalPy (a : MaskedVec) : CalcExpr → Except String PyVal
  | CalcExpr.varA => Except.ok (PyVal.arr a)
  | CalcExpr.num n => Except.ok (PyVal.intv n)
  | CalcExpr.add x y => do
      liftBin (fun p q => p + q) (← evalPy a x) (← evalPy a y)
  | CalcExpr.sub x y => do
      liftBin (fun p q => p - q) (← evalPy a x) (← evalPy a y)
  | CalcExpr.mul x y => do
      liftBin (fun p q => p * q) (← evalPy a x) (← evalPy a y)
  | CalcExpr.neg x => do
      liftBin (fun p q => p * q) (PyVal.intv (-1)) (← evalPy a x)
  | CalcExpr.attr x field => do
      match (← evalPy a x), field with
      | PyVal.arr v, "data" =>
          Except.ok (PyVal.arr { data := v.data, mask := v.mask.map fun _ => false })
      | _, _ => Except.error "AttributeError"
  | CalcExpr.index x i => do
      match (← evalPy a x) with
      | PyVal.arr v =>
          if i < v.data.length then Except.ok (PyVal.intv (v.data.getD i 0))
          else Except.error "IndexError"
      | PyVal.intv _ => Except.error "TypeError"
  | CalcExpr.call1 fname arg => do
      match fname, (← evalPy a arg) with
      | "abs", PyVal.arr v =>
          Except.ok (PyVal.arr { data := v.data.map (fun x => |x|), mask := v.mask })
      | "abs", PyVal.intv n => Except.ok (PyVal.intv |n|)
      | _, _ => Except.error ("NameError: " ++ fname)

/-- The fixed allowlist of elementwise functions of the calc language, as
the spec words it. -/
def calc_allowlist : List String :=
  ["abs", "log", "log2", "log10", "exp", "sqrt", "floor", "ceil",
   "minimum", "maximum", "where", "isnan", "isfinite"]

/-- Static validation as the spec words it: only the variable A, numeric
literals, arithmetic operators and allowlisted function calls are
permitted; attribute access, indexing and other calls are rejected.
Written from the spec for comparison with the source. -/
def spec_calc_valid : CalcExpr → Bool
  | CalcExpr.varA => true
  | CalcExpr.num _ => true
  | CalcExpr.add x y => spec_calc_valid x && spec_calc_valid y
  | CalcExpr.sub x y => spec_calc_valid x && spec_calc_valid y
  | CalcExpr.mul x y => spec_calc_valid x && spec_calc_valid y
  | CalcExpr.neg x => spec_calc_valid x
  | CalcExpr.attr _ _ => false
  | CalcExpr.index _ _ => false
  | CalcExpr.call1 fname arg => calc_allowlist.contains fname && spec_calc_valid arg

/-- Embeds RasterSrcTile._calc: without a calc the array passes through
unchanged; with a calc the expression is spliced into a function body and
executed directly by exec, with no validation step of any kind before
execution. -/
def tile_calc (calcExpr : Option CalcExpr) (a : MaskedVec) : Except String PyVal :=
  match calcExpr with
  | none => Except.ok (PyVal.arr a)
  | some e => evalPy a e

/-- C2, counterexample: the disallowed expression A.data is not rejected:
_calc executes it and returns its value (the mask is even dropped), so no
CalcInvalid failure happens before execution. -/
theorem calc_no_static_validation_counterexample :
    spec_calc_valid (CalcExpr.attr CalcExpr.varA "data") = false ∧
    tile_calc (some (CalcExpr.attr CalcExpr.varA "data"))
        { data := [1, 2], mask := [true, false] } =
      Except.ok (PyVal.arr { data := [1, 2], mask := [false, false] }) := by
  exact ⟨rfl, rfl⟩

/-- C2, amended: _calc performs no static validation at all: with no calc
it returns the array unchanged, and with a calc it executes the expression
directly regardless of whether the expression is valid for the allowlist;
in particular the disallowed attribute access A.data is evaluated on every
input, returning the unmasked data view.  Failures of the executed
expression are runtime exceptions, not a pre-execution CalcInvalid. -/
theorem calc_executes_without_validation :
    (∀ a : MaskedVec, tile_calc none a = Except.ok (PyVal.arr a)) ∧
    (∀ (e : CalcExpr) (a : MaskedVec), tile_calc (some e) a = evalPy a e) ∧
    (∀ a : MaskedVec,
      tile_calc (some (CalcExpr.attr CalcExpr.varA "data")) a =
        Except.ok (PyVal.arr { data := a.data, mask := a.mask.map fun _ => false })) := by
  exact ⟨fun a => rfl, fun e a => rfl, fun a => rfl⟩

/- ------------------------------------------------------------------ -/
/- C4: LayerModel version validation                                   -/
/- ------------------------------------------------------------------ -/

/-- All decompositions of a list into a contiguous left and right part. -/
def splits (l : List Char) : List (List Char × List Char) :=
  (List.range (l.length + 1)).map fun n => (l.take n, l.drop n)

/-- Splitting a concatenation at the join point is one of its splits. -/
theorem append_mem_splits (l₁ l₂ : List Char) : (l₁, l₂) ∈ splits (l₁ ++ l₂) := by
  unfold splits
  refine List.mem_map.mpr ⟨l₁.length, List.mem_range.mpr ?_, ?_⟩
  · simp only [List.length_append]
    omega
  · rw [List.take_left, List.drop_left]

/-- Every split of a list concatenates back to the list. -/
theorem splits_append {l : List Char} :
    ∀ p ∈ splits l, p.1 ++ p.2 = l := by
  intro p hp
  unfold splits at hp
  obtain ⟨n, -, rfl⟩ := List.mem_map.mp hp
  exact List.take_append_drop n l

/-- Matcher for the tail of the source VERSION_REGEX
(gfw_pixetl/models/pydantic.py), which after the anchors and leading v
reads as 1 to 8 digits, an optional dot, up to 3 digits, an optional dot
and up to 3 digits, the two dots being optional independently of each
other.  Match by exhaustive decomposition, which is complete for the
regex language. -/
def code_version_rest (rest : List Char) : Bool :=
  (splits rest).any fun p1 =>
    p1.1.all Char.isDigit && decide (1 ≤ p1.1.length) && decide (p1.1.length ≤ 8) &&
    ((splits p1.2).any fun p2 =>
      (decide (p2.1 = []) || decide (p2.1 = ['.'])) &&
      ((splits p2.2).any fun p3 =>
        p3.1.all Char.isDigit && decide (p3.1.length ≤ 3) &&
        ((splits p3.2).any fun p4 =>
          (decide (p4.1 = []) || decide (p4.1 = ['.'])) &&
          p4.2.all Char.isDigit && decide (p4.2.length ≤ 3))))

/-- Embeds the anchored VERSION_REGEX of the source: a leading v followed
by the tail language above. -/
def code_version_matches (s : List Char) : Bool :=
  match s with
  | c :: rest => decide (c = 'v') && code_version_rest rest
  | [] => false

/-- One group of the regex the spec states: a literal dot followed by 0
to 3 digits. -/
def group_matches (g : List Char) : Bool :=
  match g with
  | c :: ds => decide (c = '.') && ds.all Char.isDigit && decide (ds.length ≤ 3)
  | [] => false

/-- Matcher for the tail of the version regex as the spec words it:
1 to 8 digits followed by 0, 1 or 2 groups.  Written from the spec for
comparison with the source regex. -/
def spec_version_rest (rest : List Char) : Bool :=
  (splits rest).any fun p =>
    p.1.all Char.isDigit && decide (1 ≤ p.1.length) && decide (p.1.length ≤ 8) &&
    (decide (p.2 = []) || group_matches p.2 ||
      (splits p.2).any fun q => group_matches q.1 && group_matches q.2)

/-- The version regex as the spec words it, anchored over the whole
string. -/
def spec_version_matches (s : List Char) : Bool :=
  match s with
  | c :: rest => decide (c = 'v') && spec_version_rest rest
  | [] => false

/-- A layer description record, reduced to the fields the version claims
concern. -/
structure LayerModel where
  dataset : String
  version : String
deriving DecidableEq, Repr

/-- Embeds the pydantic validation of LayerModel.version against
VERSION_REGEX: construction succeeds exactly when the version string
matches, otherwise a ValidationError is raised before any I/O. -/
def mkLayerModel (dataset version : String) : Except String LayerModel :=
  if code_version_matches version.data then
    Except.ok { dataset := dataset, version := version }
  else Except.error "ValidationError"

example : code_version_matches ("v1.2.3").data = true := by decide
example : code_version_matches ("version1").data = false := by decide
example : spec_version_matches ("v1.2.3").data = true := by decide

/-- C4, counterexample: the nine-digit string v123456789 matches the
source VERSION_REGEX, so LayerModel construction succeeds, yet it does
not match the regex the claim states, whose 1-to-8-digit head must be
followed only by dot-led groups. -/
theorem version_regex_counterexample :
    mkLayerModel "umd_tree_cover_density" "v123456789" =
      Except.ok { dataset := "umd_tree_cover_density", version := "v123456789" } ∧
    code_version_matches ("v123456789").data = true ∧
    spec_version_matches ("v123456789").data = false := by
  refine ⟨?_, by decide, by decide⟩
  rw [mkLayerModel, if_pos (by decide)]

/-- The tail language of the regex the spec states is included in the
tail language of the source regex. -/
theorem spec_rest_incl_code (rest : List Char)
    (h : spec_version_rest rest = true) : code_version_rest rest = true := by
  unfold spec_version_rest at h
  obtain ⟨p, hp, hcond⟩ := List.any_eq_true.mp h
  have heq : p.1 ++ p.2 = rest := splits_append p hp
  obtain ⟨p1, p2⟩ := p
  subst heq
  simp only [Bool.and_eq_true, Bool.or_eq_true, decide_eq_true_eq] at hcond
  obtain ⟨⟨⟨hA, hB⟩, hC⟩, hD⟩ := hcond
  unfold code_version_rest
  refine List.any_eq_true.mpr ⟨(p1, p2), append_mem_splits _ _, ?_⟩
  simp only [Bool.and_eq_true, decide_eq_true_eq]
  refine ⟨⟨⟨hA, hB⟩, hC⟩, ?_⟩
  rcases hD with (h0 | hg) | h2
  · rw [h0]
    decide
  · cases p2 with
    | nil => simp [group_matches] at hg
    | cons c2 ds =>
      simp only [group_matches, Bool.and_eq_true, decide_eq_true_eq] at hg
      obtain ⟨⟨hc2, hds⟩, hlen⟩ := hg
      subst hc2
      refine List.any_eq_true.mpr ⟨(['.'], ds), append_mem_splits ['.'] ds, ?_⟩
      simp only [Bool.and_eq_true, Bool.or_eq_true, decide_eq_true_eq]
      refine ⟨Or.inr trivial, ?_⟩
      have hmem : ((ds, []) : List Char × List Char) ∈ splits ds := by
        have hbase := append_mem_splits ds []
        rwa [List.append_nil] at hbase
      refine List.any_eq_true.mpr ⟨(ds, []), hmem, ?_⟩
      simp only [Bool.and_eq_true, decide_eq_true_eq]
      exact ⟨⟨hds, hlen⟩, by decide⟩
  · obtain ⟨q, hq, hqc⟩ := List.any_eq_true.mp h2
    have heq2 : q.1 ++ q.2 = p2 := splits_append q hq
    obtain ⟨q1, q2⟩ := q
    rw [Bool.and_eq_true] at hqc
    obtain ⟨hg1, hg2⟩ := hqc
    cases q1 with
    | nil => simp [group_matches] at hg1
    | cons c1 ds1 =>
      cases q2 with
      | nil => simp [group_matches] at hg2
      | cons c2 ds2 =>
        simp only [group_matches, Bool.and_eq_true, decide_eq_true_eq] at hg1 hg2
        obtain ⟨⟨hc1, hds1⟩, hlen1⟩ := hg1
        obtain ⟨⟨hc2, hds2⟩, hlen2⟩ := hg2
        subst hc1
        subst hc2
        rw [← heq2]
        refine List.any_eq_true.mpr
          ⟨(['.'], ds1 ++ '.' :: ds2), append_mem_splits ['.'] (ds1 ++ '.' :: ds2), ?_⟩
        simp only [Bool.and_eq_true, Bool.or_eq_true, decide_eq_true_eq]
        refine ⟨Or.inr trivial, ?_⟩
        refine List.any_eq_true.mpr
          ⟨(ds1, '.' :: ds2), append_mem_splits ds1 ('.' :: ds2), ?_⟩
        simp only [Bool.and_eq_true, decide_eq_true_eq]
        refine ⟨⟨hds1, hlen1⟩, ?_⟩
        refine List.any_eq_true.mpr ⟨(['.'], ds2), append_mem_splits ['.'] ds2, ?_⟩
        simp only [Bool.and_eq_true, Bool.or_eq_true, decide_eq_true_eq]
        exact ⟨⟨Or.inr trivial, hds2⟩, hlen2⟩

/-- C4, amended: LayerModel construction succeeds exactly when the
version matches the source regex, whose two dots are optional
independently of the digits, so it accepts every string of the regex the
spec states and additionally strings such as v123456789 with up to 14
digits and no dot separators; any non-matching version is rejected with
ValidationError before any I/O. -/
theorem version_regex_amended :
    (∀ dataset version : String,
      mkLayerModel dataset version =
          Except.ok { dataset := dataset, version := version } ↔
        code_version_matches version.data = true) ∧
    (∀ dataset version : String,
      mkLayerModel dataset version = Except.error "ValidationError" ↔
        code_version_matches version.data = false) ∧
    (∀ s : List Char, spec_version_matches s = true →
      code_version_matches s = true) := by
  refine ⟨?_, ?_, ?_⟩
  · intro dataset version
    unfold mkLayerModel
    by_cases h : code_version_matches version.data = true
    · simp [h]
    · simp [h]
  · intro dataset version
    unfold mkLayerModel
    by_cases h : code_version_matches version.data = true
    · simp [h]
    · simp only [Bool.not_eq_true] at h
      simp [h]
  · intro s h
    cases s with
    | nil => simp [spec_version_matches] at h
    | cons c rest =>
      simp only [spec_version_matches, Bool.and_eq_true, decide_eq_true_eq] at h
      simp only [code_version_matches, Bool.and_eq_true, decide_eq_true_eq]
      exact ⟨h.1, spec_rest_incl_code rest h.2⟩

/-- C4, witness: the version v1.2 matches the regex the spec states, and
through the inclusion it matches the source regex, so construction
succeeds. -/
theorem version_regex_amended_witness :
    code_version_matches ("v1.2").data = true ∧
    mkLayerModel "umd_glad_alerts" "v1.2" =
      Except.ok { dataset := "umd_glad_alerts", version := "v1.2" } :=
  ⟨version_regex_amended.2.2 ("v1.2").data (by decide),
   (version_regex_amended.1 "umd_glad_alerts" "v1.2").mpr
     (version_regex_amended.2.2 ("v1.2").data (by decide))⟩

/- ------------------------------------------------------------------ -/
/- C3: pipeline runtime, RasterPipe.create_tiles                       -/
/- ------------------------------------------------------------------ -/

namespace SpecPipe

/-- Modelled from the spec: a tile flowing through the pipeline runtime
(the operative gfw_pixetl/pipes package init holding the status-marking
RasterPipe is absent from the tree; tests/test_raster_pipe.py pins the
triple-returning behavior): tile id, lifecycle status and the has-data
flag computed by the transform. -/
structure PTile where
  id : String
  status : TileStatus
  hasData : Bool
deriving DecidableEq, Repr

/-- Modelled from the spec: every stage forwards tiles that already left
the pending state unchanged (a skipped or failed tile short-circuits to
the terminal sink). -/
def stage_step (f : PTile → PTile) (t : PTile) : PTile :=
  if t.status = TileStatus.pending then f t else t

/-- Modelled from the spec: the subset filter marks tiles outside the
requested subset as skipped and forwards every tile. -/
def filter_subset_tiles (subset : Option (List String)) (ts : List PTile) :
    List PTile :=
  ts.map (stage_step fun t =>
    match subset with
    | none => t
    | some s => if t.id ∈ s then t else { t with status := TileStatus.skipped })

/-- Modelled from the spec: the source-intersection filter marks tiles
with no overlapping source as skipped and forwards every tile. -/
def filter_src_tiles (within : String → Bool) (ts : List PTile) : List PTile :=
  ts.map (stage_step fun t =>
    if within t.id then t else { t with status := TileStatus.skipped })

/-- Modelled from the spec: the destination-existence filter marks tiles
already present at the destination as skipped unless overwrite is set,
and forwards every tile. -/
def filter_target_tiles (overwrite : Bool) (dstExistsB : String → Bool)
    (ts : List PTile) : List PTile :=
  ts.map (stage_step fun t =>
    if overwrite || !dstExistsB t.id then t
    else { t with status := TileStatus.skipped })

/-- Modelled from the spec: the transform stage marks a tile failed when
its transform raises, otherwise records the has-data flag; every tile is
forwarded. -/
def transform_stage (outcome : String → Except String Bool) (ts : List PTile) :
    List PTile :=
  ts.map (stage_step fun t =>
    match outcome t.id with
    | Except.error _ => { t with status := TileStatus.failed }
    | Except.ok hd => { t with hasData := hd })

/-- Modelled from the spec: empty transforms are marked skipped; every
tile is forwarded. -/
def delete_if_empty (ts : List PTile) : List PTile :=
  ts.map (stage_step fun t =>
    if t.hasData then t else { t with status := TileStatus.skipped })

/-- Modelled from the spec: upload errors transition the tile to failed;
every tile is forwarded. -/
def upload_stage (uploadOk : String → Bool) (ts : List PTile) : List PTile :=
  ts.map (stage_step fun t =>
    if uploadOk t.id then t else { t with status := TileStatus.failed })

/-- Modelled from the spec: at the terminal sink a tile still pending has
passed every stage and is succeeded; other statuses are terminal. -/
def finalize (t : PTile) : PTile :=
  if t.status = TileStatus.pending then { t with status := TileStatus.succeeded }
  else t

/-- Modelled from the spec: the staged pipeline in order, seed to upload,
ending with the terminal sink classification. -/
def pipeline (subset : Option (List String)) (overwrite : Bool)
    (dstExistsB within uploadOk : String → Bool)
    (outcome : String → Except String Bool) (seeds : List PTile) : List PTile :=
  (upload_stage uploadOk
    (delete_if_empty
      (transform_stage outcome
        (filter_target_tiles overwrite dstExistsB
          (filter_src_tiles within
            (filter_subset_tiles subset seeds)))))).map finalize

/-- Modelled from the spec: create_tiles runs the staged pipeline over
the seeded tiles and returns the three result lists (succeeded, skipped,
failed), partitioned by terminal status. -/
def create_tiles (subset : Option (List String)) (overwrite : Bool)
    (dstExistsB within uploadOk : String → Bool)
    (outcome : String → Except String Bool) (seeds : List PTile) :
    List PTile × List PTile × List PTile :=
  let fin := pipeline subset overwrite dstExistsB within uploadOk outcome seeds
  (fin.filter fun t => decide (t.status = TileStatus.succeeded),
   fin.filter fun t => decide (t.status = TileStatus.skipped),
   fin.filter fun t => decide (t.status = TileStatus.failed))

end SpecPipe

/-- Mapping a function that does not touch the id leaves the id list of a
tile list unchanged. -/
theorem map_id_of_id_preserved {f : SpecPipe.PTile → SpecPipe.PTile}
    (hf : ∀ t, (f t).id = t.id) :
    ∀ ts : List SpecPipe.PTile,
      (ts.map f).map SpecPipe.PTile.id = ts.map SpecPipe.PTile.id := by
  intro ts
  induction ts with
  | nil => rfl
  | cons x xs ih => simp [hf x, ih]

/-- A stage step keeps the tile id whenever the wrapped function does. -/
theorem stage_step_id {f : SpecPipe.PTile → SpecPipe.PTile}
    (hf : ∀ t, (f t).id = t.id) (t : SpecPipe.PTile) :
    (SpecPipe.stage_step f t).id = t.id := by
  unfold SpecPipe.stage_step
  split
  · exact hf t
  · rfl

/-- The subset filter preserves the id list of its input. -/
theorem filter_subset_tiles_ids (subset : Option (List String))
    (ts : List SpecPipe.PTile) :
    (SpecPipe.filter_subset_tiles subset ts).map SpecPipe.PTile.id =
      ts.map SpecPipe.PTile.id := by
  refine map_id_of_id_preserved (fun t => stage_step_id ?_ t) ts
  intro t
  cases subset with
  | none => rfl
  | some s =>
    by_cases h : t.id ∈ s <;> simp [h]

/-- The source-intersection filter preserves the id list of its input. -/
theorem filter_src_tiles_ids (within : String → Bool)
    (ts : List SpecPipe.PTile) :
    (SpecPipe.filter_src_tiles within ts).map SpecPipe.PTile.id =
      ts.map SpecPipe.PTile.id := by
  refine map_id_of_id_preserved (fun t => stage_step_id ?_ t) ts
  intro t
  by_cases h : within t.id <;> simp [h]

/-- The destination-existence filter preserves the id list of its input. -/
theorem filter_target_tiles_ids (overwrite : Bool) (dstExistsB : String → Bool)
    (ts : List SpecPipe.PTile) :
    (SpecPipe.filter_target_tiles overwrite dstExistsB ts).map SpecPipe.PTile.id =
      ts.map SpecPipe.PTile.id := by
  refine map_id_of_id_preserved (fun t => stage_step_id ?_ t) ts
  intro t
  by_cases h : (overwrite || !dstExistsB t.id) = true <;> simp [h]

/-- The transform stage preserves the id list of its input. -/
theorem transform_stage_ids (outcome : String → Except String Bool)
    (ts : List SpecPipe.PTile) :
    (SpecPipe.transform_stage outcome ts).map SpecPipe.PTile.id =
      ts.map SpecPipe.PTile.id := by
  refine map_id_of_id_preserved (fun t => stage_step_id ?_ t) ts
  intro t
  cases outcome t.id <;> rfl

/-- The emptiness filter preserves the id list of its input. -/
theorem delete_if_empty_ids (ts : List SpecPipe.PTile) :
    (SpecPipe.delete_if_empty ts).map SpecPipe.PTile.id =
      ts.map SpecPipe.PTile.id := by
  refine map_id_of_id_preserved (fun t => stage_step_id ?_ t) ts
  intro t
  by_cases h : t.hasData <;> simp [h]

/-- The upload stage preserves the id list of its input. -/
theorem upload_stage_ids (uploadOk : String → Bool)
    (ts : List SpecPipe.PTile) :
    (SpecPipe.upload_stage uploadOk ts).map SpecPipe.PTile.id =
      ts.map SpecPipe.PTile.id := by
  refine map_id_of_id_preserved (fun t => stage_step_id ?_ t) ts
  intro t
  by_cases h : uploadOk t.id <;> simp [h]

/-- The terminal sink never leaves a tile pending. -/
theorem finalize_status_ne_pending (t : SpecPipe.PTile) :
    (SpecPipe.finalize t).status ≠ TileStatus.pending := by
  unfold SpecPipe.finalize
  split
  · simp
  · assumption

/-- Three filters whose predicates hold exactly once per element
partition the list up to permutation. -/
theorem perm_filter_partition3 {α : Type} (p q r : α → Bool) :
    ∀ l : List α,
      (∀ x ∈ l, (p x = true ∧ q x = false ∧ r x = false) ∨
        (p x = false ∧ q x = true ∧ r x = false) ∨
        (p x = false ∧ q x = false ∧ r x = true)) →
      (l.filter p ++ l.filter q ++ l.filter r).Perm l := by
  intro l
  induction l with
  | nil => intro _; simp
  | cons x xs ih =>
    intro h
    have hx := h x (List.mem_cons_self x xs)
    have hperm := ih fun y hy => h y (List.mem_cons_of_mem x hy)
    rcases hx with ⟨h1, h2, h3⟩ | ⟨h1, h2, h3⟩ | ⟨h1, h2, h3⟩
    · simp only [List.filter_cons, h1, h2, h3, if_true, if_false, Bool.false_eq_true,
        List.cons_append]
      exact hperm.cons x
    · simp only [List.filter_cons, h1, h2, h3, if_true, if_false, Bool.false_eq_true]
      have hshape : xs.filter p ++ (x :: xs.filter q) ++ xs.filter r =
          xs.filter p ++ x :: (xs.filter q ++ xs.filter r) := by
        simp [List.append_assoc]
      rw [hshape]
      refine List.perm_middle.trans ?_
      rw [← List.append_assoc]
      exact hperm.cons x
    · simp only [List.filter_cons, h1, h2, h3, if_true, if_false, Bool.false_eq_true]
      exact List.perm_middle.trans (hperm.cons x)

/-- The terminal sink keeps the tile id. -/
theorem finalize_id (t : SpecPipe.PTile) : (SpecPipe.finalize t).id = t.id := by
  unfold SpecPipe.finalize
  split <;> rfl

/-- C3: create_tiles returns the three lists (succeeded, skipped,
failed); together they are a permutation of the seeded tiles (no tile is
dropped silently), no tile id appears in more than one of the three
lists, and every filter stage preserves the id list of its input (so each
filter output is a subset of its input). -/
theorem create_tiles_partition
    (subset : Option (List String)) (overwrite : Bool)
    (dstExistsB within uploadOk : String → Bool)
    (outcome : String → Except String Bool)
    (seeds succeeded skipped failed : List SpecPipe.PTile)
    (hres : SpecPipe.create_tiles subset overwrite dstExistsB within uploadOk
      outcome seeds = (succeeded, skipped, failed))
    (hnodup : (seeds.map SpecPipe.PTile.id).Nodup) :
    (((succeeded ++ skipped ++ failed).map SpecPipe.PTile.id).Perm
      (seeds.map SpecPipe.PTile.id)) ∧
    (∀ i : String,
      ¬(i ∈ succeeded.map SpecPipe.PTile.id ∧ i ∈ skipped.map SpecPipe.PTile.id) ∧
      ¬(i ∈ succeeded.map SpecPipe.PTile.id ∧ i ∈ failed.map SpecPipe.PTile.id) ∧
      ¬(i ∈ skipped.map SpecPipe.PTile.id ∧ i ∈ failed.map SpecPipe.PTile.id)) ∧
    (∀ ts, (SpecPipe.filter_subset_tiles subset ts).map SpecPipe.PTile.id =
      ts.map SpecPipe.PTile.id) ∧
    (∀ ts, (SpecPipe.filter_src_tiles within ts).map SpecPipe.PTile.id =
      ts.map SpecPipe.PTile.id) ∧
    (∀ ts, (SpecPipe.filter_target_tiles overwrite dstExistsB ts).map
      SpecPipe.PTile.id = ts.map SpecPipe.PTile.id) ∧
    (∀ ts, (SpecPipe.transform_stage outcome ts).map SpecPipe.PTile.id =
      ts.map SpecPipe.PTile.id) ∧
    (∀ ts, (SpecPipe.delete_if_empty ts).map SpecPipe.PTile.id =
      ts.map SpecPipe.PTile.id) ∧
    (∀ ts, (SpecPipe.upload_stage uploadOk ts).map SpecPipe.PTile.id =
      ts.map SpecPipe.PTile.id) := by
  simp only [SpecPipe.create_tiles, Prod.mk.injEq] at hres
  obtain ⟨hs, hk, hf⟩ := hres
  subst hs
  subst hk
  subst hf
  have hfinid : (SpecPipe.pipeline subset overwrite dstExistsB within uploadOk
      outcome seeds).map SpecPipe.PTile.id = seeds.map SpecPipe.PTile.id := by
    unfold SpecPipe.pipeline
    rw [map_id_of_id_preserved finalize_id, upload_stage_ids, delete_if_empty_ids,
      transform_stage_ids, filter_target_tiles_ids, filter_src_tiles_ids,
      filter_subset_tiles_ids]
  have hne : ∀ t ∈ SpecPipe.pipeline subset overwrite dstExistsB within uploadOk
      outcome seeds, t.status ≠ TileStatus.pending := by
    intro t ht
    obtain ⟨u, -, rfl⟩ := List.mem_map.mp ht
    exact finalize_status_ne_pending u
  have hcases : ∀ x ∈ SpecPipe.pipeline subset overwrite dstExistsB within uploadOk
      outcome seeds,
      ((fun t => decide (t.status = TileStatus.succeeded)) x = true ∧
        (fun t => decide (t.status = TileStatus.skipped)) x = false ∧
        (fun t => decide (t.status = TileStatus.failed)) x = false) ∨
      ((fun t => decide (t.status = TileStatus.succeeded)) x = false ∧
        (fun t => decide (t.status = TileStatus.skipped)) x = true ∧
        (fun t => decide (t.status = TileStatus.failed)) x = false) ∨
      ((fun t => decide (t.status = TileStatus.succeeded)) x = false ∧
        (fun t => decide (t.status = TileStatus.skipped)) x = false ∧
        (fun t => decide (t.status = TileStatus.failed)) x = true) := by
    intro x hx
    have hxne := hne x hx
    cases hstat : x.status with
    | pending => exact absurd hstat hxne
    | succeeded => exact Or.inl ⟨by simp [hstat], by simp [hstat], by simp [hstat]⟩
    | skipped =>
        exact Or.inr (Or.inl ⟨by simp [hstat], by simp [hstat], by simp [hstat]⟩)
    | failed =>
        exact Or.inr (Or.inr ⟨by simp [hstat], by simp [hstat], by simp [hstat]⟩)
  have hperm3 := perm_filter_partition3 _ _ _ _ hcases
  have hnodupfin : ((SpecPipe.pipeline subset overwrite dstExistsB within uploadOk
      outcome seeds).map SpecPipe.PTile.id).Nodup := by
    rw [hfinid]
    exact hnodup
  refine ⟨?_, ?_, filter_subset_tiles_ids subset, filter_src_tiles_ids within,
    filter_target_tiles_ids overwrite dstExistsB, transform_stage_ids outcome,
    delete_if_empty_ids, upload_stage_ids uploadOk⟩
  · have hmap := hperm3.map SpecPipe.PTile.id
    rw [hfinid] at hmap
    exact hmap
  · intro i
    refine ⟨?_, ?_, ?_⟩ <;> rintro ⟨hi1, hi2⟩ <;>
      obtain ⟨t1, ht1, hid1⟩ := List.mem_map.mp hi1 <;>
      obtain ⟨t2, ht2, hid2⟩ := List.mem_map.mp hi2 <;>
      have hm1 := List.mem_filter.mp ht1 <;>
      have hm2 := List.mem_filter.mp ht2 <;>
      have heq12 : t1 = t2 :=
        List.inj_on_of_nodup_map hnodupfin hm1.1 hm2.1 (hid1.trans hid2.symm) <;>
      subst heq12 <;>
      have hp1 := hm1.2 <;>
      have hp2 := hm2.2 <;>
      simp only [decide_eq_true_eq] at hp1 hp2 <;>
      rw [hp1] at hp2 <;>
      exact absurd hp2 (by simp)

/-- Concrete pending seed tiles with distinct ids. -/
def seedTiles : List SpecPipe.PTile :=
  [{ id := "10N_010E", status := TileStatus.pending, hasData := true },
   { id := "20N_010E", status := TileStatus.pending, hasData := true }]

/-- C3, witness: a concrete run with a subset holding only the first tile
partitions the two seeds into the three lists without loss, with disjoint
ids and id-preserving filters. -/
theorem create_tiles_partition_witness :
    (((SpecPipe.create_tiles (some ["10N_010E"]) true (fun _ => false)
        (fun _ => true) (fun _ => true) (fun _ => Except.ok true) seedTiles).1 ++
      (SpecPipe.create_tiles (some ["10N_010E"]) true (fun _ => false)
        (fun _ => true) (fun _ => true) (fun _ => Except.ok true) seedTiles).2.1 ++
      (SpecPipe.create_tiles (some ["10N_010E"]) true (fun _ => false)
        (fun _ => true) (fun _ => true) (fun _ => Except.ok true) seedTiles).2.2).map
        SpecPipe.PTile.id).Perm (seedTiles.map SpecPipe.PTile.id) :=
  (create_tiles_partition (some ["10N_010E"]) true (fun _ => false)
    (fun _ => true) (fun _ => true) (fun _ => Except.ok true) seedTiles
    _ _ _ rfl (by decide)).1
